import Mathlib

/-!
Verification of the `sqlalchemy-filters-plus` repository.

This file gives a shallow embedding, in Lean 4, of the parts of the library
that the verified claims are about:

* `sqlalchemy_filters/operators.py` — the operator algebra (`BaseOperator`
  and its subclasses, `check_params`, `to_sql`, the SQLAlchemy-1.4
  compatibility wrapper `sa_1_4_compatible`);
* `sqlalchemy_filters/fields.py`    — `BaseField.apply_filter`,
  `TypedField.validate` and the concrete typed fields;
* `sqlalchemy_filters/filters.py`   — `BaseFilter.validate`,
  `validate_fields`, `validate_nested`, `apply_fields`,
  `extract_declared_field`, `order_by` / `_parse_order_by`;
* `sqlalchemy_filters/paginator.py` — the `Paginator` constructor and its
  derived attributes;
* `sqlalchemy_filters/utils.py`     — `empty_sql`, `is_none`, truthiness.

Python values (the untrusted input data) and SQLAlchemy clause elements are
both modelled by the single inductive type `Obj`, mirroring the fact that in
the source both live in the same dynamically-typed universe (operator
parameters may be plain values or clause elements).  Python exceptions are
modelled with `Except` / explicit error fields, keeping the distinct
exception classes of `sqlalchemy_filters/exceptions.py` distinguishable.
-/

namespace SqlalchemyFiltersPlus

/-- Names of the underlying SQLAlchemy comparison/combination operators that
the library's operator classes are registered with (`register_operator`
arguments in `operators.py`). -/
inductive OpName where
  | eq
  | is_
  | isnot
  | inOp
  | betweenOp
  | le
  | lt
  | ge
  | gt
  | andOp
  | orOp
  | containsOp
  | startswithOp
  | endswithOp
  deriving DecidableEq, Repr

/-- A dynamically-typed Python object / SQLAlchemy clause element.

`pynone`, `pybool`, `pyint`, `pystr`, `pylist`, `pydict` model plain Python
data values; `textClause` models `sqlalchemy.text(...)`; `col` a column
clause; `opExpr` the application of a SQLAlchemy operator to a left operand
and further arguments; `lowerFn` an application of `func.lower(...)`;
`unary` a `column.asc()` / `column.desc()` unary ordering expression. -/
inductive Obj where
  | pynone
  | pybool (b : Bool)
  | pyint (n : Int)
  | pystr (s : String)
  | pylist (xs : List Obj)
  | pydict (entries : List (String × Obj))
  | textClause (s : String)
  | col (name : String)
  | opExpr (op : OpName) (lhs : Obj) (args : List Obj)
  | lowerFn (args : List Obj)
  | unary (name : String) (descending : Bool)

/-- Python truthiness (`bool(x)`) on the modelled universe.  Clause elements
are treated as plain (truthy) objects; none of the verified code paths asks
for the truthiness of a clause element. -/
def truthy : Obj → Bool
  | .pynone => false
  | .pybool b => b
  | .pyint n => n ≠ 0
  | .pystr s => s ≠ ""
  | .pylist xs => !xs.isEmpty
  | .pydict es => !es.isEmpty
  | _ => true

/-- `type(x).__name__` for the modelled Python data values (used in the
`InvalidParamError` message of `BaseOperator.check_params`). -/
def pyTypeName : Obj → String
  | .pynone => "NoneType"
  | .pybool _ => "bool"
  | .pyint _ => "int"
  | .pystr _ => "str"
  | .pylist _ => "list"
  | .pydict _ => "dict"
  | .textClause _ => "TextClause"
  | .col _ => "ColumnClause"
  | .opExpr _ _ _ => "BinaryExpression"
  | .lowerFn _ => "Function"
  | .unary _ _ => "UnaryExpression"

/-- `utils.empty_sql()`: the literal-true placeholder `text("")`. -/
def empty_sql : Obj := .textClause ""

/-- `utils.is_none(value)`: `isinstance(value, type(None))`. -/
def is_none : Obj → Bool
  | .pynone => true
  | _ => false

/-! ## Operator algebra (`sqlalchemy_filters/operators.py`) -/

/-- The operator classes defined in `operators.py`: `BaseOperator` and every
subclass registered with `register_operator`. -/
inductive OperatorClass where
  | BaseOperator
  | IsOperator
  | IsNotOperator
  | IsEmptyOperator
  | IsNotEmptyOperator
  | INOperator
  | EqualsOperator
  | RangeOperator
  | LTEOperator
  | LTOperator
  | GTEOperator
  | GTOperator
  | AndOperator
  | OrOperator
  | ContainsOperator
  | IContainsOperator
  | StartsWithOperator
  | IStartsWithOperator
  | EndsWithOperator
  | IEndsWithOperator
  deriving DecidableEq, Repr

/-- `cls.__name__`, as used in error messages. -/
def className : OperatorClass → String
  | .BaseOperator => "BaseOperator"
  | .IsOperator => "IsOperator"
  | .IsNotOperator => "IsNotOperator"
  | .IsEmptyOperator => "IsEmptyOperator"
  | .IsNotEmptyOperator => "IsNotEmptyOperator"
  | .INOperator => "INOperator"
  | .EqualsOperator => "EqualsOperator"
  | .RangeOperator => "RangeOperator"
  | .LTEOperator => "LTEOperator"
  | .LTOperator => "LTOperator"
  | .GTEOperator => "GTEOperator"
  | .GTOperator => "GTOperator"
  | .AndOperator => "AndOperator"
  | .OrOperator => "OrOperator"
  | .ContainsOperator => "ContainsOperator"
  | .IContainsOperator => "IContainsOperator"
  | .StartsWithOperator => "StartsWithOperator"
  | .IStartsWithOperator => "IStartsWithOperator"
  | .EndsWithOperator => "EndsWithOperator"
  | .IEndsWithOperator => "IEndsWithOperator"

/-- The SQLAlchemy operator each class is registered with via
`@register_operator(sql_operator=...)`; `BaseOperator` is not registered
(its `operator` attribute is a bare annotation, reading it raises
`AttributeError`). -/
def sqlOp : OperatorClass → Option OpName
  | .BaseOperator => none
  | .IsOperator => some .is_
  | .IsNotOperator => some .isnot
  | .IsEmptyOperator => some .is_
  | .IsNotEmptyOperator => some .isnot
  | .INOperator => some .inOp
  | .EqualsOperator => some .eq
  | .RangeOperator => some .betweenOp
  | .LTEOperator => some .le
  | .LTOperator => some .lt
  | .GTEOperator => some .ge
  | .GTOperator => some .gt
  | .AndOperator => some .andOp
  | .OrOperator => some .orOp
  | .ContainsOperator => some .containsOp
  | .IContainsOperator => some .containsOp
  | .StartsWithOperator => some .startswithOp
  | .IStartsWithOperator => some .startswithOp
  | .EndsWithOperator => some .endswithOp
  | .IEndsWithOperator => some .endswithOp

/-- The class-level `params` attribute.  `IsEmptyOperator` and
`IsNotEmptyOperator` declare `params = [None]` in their class bodies; every
other class leaves it unset.  Note that `BaseOperator.__init__` always
assigns the instance attribute `self.params = params or []`, which shadows
this class attribute, so it is never read on an instance. -/
def classParams : OperatorClass → List Obj
  | .IsEmptyOperator => [.pynone]
  | .IsNotEmptyOperator => [.pynone]
  | _ => []

/-- `BaseOperator.check_params` together with the `RangeOperator.check_params`
refinement (which calls `super().check_params` first). -/
def check_params (cls : OperatorClass) (params : Obj) : Except String Unit :=
  match params with
  | .pylist xs =>
      if cls = .RangeOperator ∧ xs.length ≠ 2 then
        .error s!"{className cls}.params should have exactly 2 values, got {xs.length}."
      else
        .ok ()
  | other =>
      .error s!"{className cls}.params expected to be a list, got {pyTypeName other}."

/-- An operator instance after `BaseOperator.__init__` has run. -/
structure OperatorInst where
  cls : OperatorClass
  sql_expression : Obj
  params : List Obj

/-- `BaseOperator.__init__(sql_expression, params=None)`:
`self.params = params or []`, then `self.check_params(self.params)`.
Raising `InvalidParamError` is modelled by the `Except` error case. -/
def mkOperator (cls : OperatorClass) (sql_expression : Obj) (params : Option Obj) :
    Except String OperatorInst :=
  let p : Obj := match params with
    | none => .pylist []
    | some v => if truthy v then v else .pylist []
  match check_params cls p with
  | .error e => .error e
  | .ok () =>
      match p with
      | .pylist xs => .ok ⟨cls, sql_expression, xs⟩
      | _ => .error "unreachable: check_params accepts lists only"

/-- `BaseOperator.get_sql_expression`: a raw `str` left operand is resolved
into a column clause, anything else is returned unchanged. -/
def getSqlExpression : Obj → Obj
  | .pystr s => .col s
  | e => e

/-- Number of positional arguments the underlying SQLAlchemy operator
function expects (`is_(a, b)`, `eq(a, b)`, ..., `between_op(a, b, c)`). -/
def opArity : OpName → Nat
  | .betweenOp => 3
  | _ => 2

/-- Calling the underlying SQLAlchemy operator function on a list of
positional arguments; a wrong argument count is Python's `TypeError`. -/
def applySqlOperator (op : OpName) (args : List Obj) : Except String Obj :=
  if args.length = opArity op then
    match args with
    | a :: rest => .ok (.opExpr op a rest)
    | [] => .error "TypeError: missing operands"
  else
    .error "TypeError: wrong number of operands"

/-- The un-wrapped `to_sql` of each class: the `BaseOperator.to_sql` body
`self.operator(self.get_sql_expression(), *self.params)`, or the overriding
bodies of `INOperator` (passes the whole params list as one argument) and
the case-insensitive variants (wrap both sides in `func.lower`). -/
def rawToSql (inst : OperatorInst) : Except String Obj :=
  match inst.cls with
  | .INOperator =>
      applySqlOperator .inOp [getSqlExpression inst.sql_expression, .pylist inst.params]
  | .IContainsOperator =>
      applySqlOperator .containsOp
        [.lowerFn [getSqlExpression inst.sql_expression], .lowerFn inst.params]
  | .IStartsWithOperator =>
      applySqlOperator .startswithOp
        [.lowerFn [getSqlExpression inst.sql_expression], .lowerFn inst.params]
  | .IEndsWithOperator =>
      applySqlOperator .endswithOp
        [.lowerFn [getSqlExpression inst.sql_expression], .lowerFn inst.params]
  | c =>
      match sqlOp c with
      | some op => applySqlOperator op (getSqlExpression inst.sql_expression :: inst.params)
      | none => .error "AttributeError: BaseOperator has no operator"

/-- `isinstance(x, TextClause) and empty_sql().compare(x)` — the test the
`sa_1_4_compatible` wrapper applies to each operand. -/
def isEmptyTextClause : Obj → Bool
  | .textClause s => s = ""
  | _ => false

/-- `isinstance(x, TextClause)`. -/
def isTextClause : Obj → Bool
  | .textClause _ => true
  | _ => false

/-- `to_sql` as observed on instances.  `__init_subclass__` wraps every
subclass's `to_sql` with `sa_1_4_compatible`; the wrapper is the identity
unless the installed SQLAlchemy version starts with "1.4" (`sa14`).  When
active it (a) short-circuits to `empty_sql()` when the expression and all
params are empty text clauses, and (b) reverses operand order via
`self.operator(*self.params, sql_exp)` when the left operand is a
`TextClause`.  `BaseOperator` itself is never wrapped. -/
def toSql (sa14 : Bool) (inst : OperatorInst) : Except String Obj :=
  if inst.cls = .BaseOperator then rawToSql inst
  else if sa14 then
    let sqlExp := getSqlExpression inst.sql_expression
    if (inst.params ++ [sqlExp]).all isEmptyTextClause then
      .ok empty_sql
    else if isTextClause sqlExp then
      match sqlOp inst.cls with
      | some op => applySqlOperator op (inst.params ++ [sqlExp])
      | none => .error "AttributeError: BaseOperator has no operator"
    else rawToSql inst
  else rawToSql inst

/-- Constructing an operator and immediately rendering it, i.e.
`cls(sql_expression, params).to_sql()` — the way the filter engine applies
operators. -/
def applyOperator (sa14 : Bool) (cls : OperatorClass) (sql_expression : Obj)
    (params : Option Obj) : Except String Obj :=
  match mkOperator cls sql_expression params with
  | .error e => .error e
  | .ok inst => toSql sa14 inst

/-- The "Required members" of the operator algebra (spec §4.1): every
registered operator class; `BaseOperator` is the unregistered base. -/
def isAlgebraMember (cls : OperatorClass) : Bool :=
  cls ≠ .BaseOperator

/-! ## Input data (Python dicts keyed by field data-source names) -/

/-- The `data` / `validated_data` dictionaries of a filter instance. -/
abbrev Data := List (String × Obj)

/-- `d.get(key, default=absent)`: first binding of `key`, `none` when the key
is absent (the library's `Empty` sentinel). -/
def dataGet : Data → String → Option Obj
  | [], _ => none
  | (k, v) :: rest, key => if k = key then some v else dataGet rest key

/-- `d[key] = val`: replace the existing binding in place, else append. -/
def dataSet : Data → String → Obj → Data
  | [], key, val => [(key, val)]
  | (k, v) :: rest, key, val =>
      if k = key then (k, val) :: rest else (k, v) :: dataSet rest key val

/-! ## Fields (`sqlalchemy_filters/fields.py`) -/

/-- A `BaseField` as it exists on a finalized filter class:
`data_source_name` is the result of `get_data_source_name()`
(`self.data_source_name or self.public_name`), `column` the resolved
`self._column`. -/
structure BaseFieldM where
  data_source_name : String
  allow_none : Bool
  lookup_operator : OperatorClass
  column : Obj

/-- The value-wrapping step of `BaseField._apply_filter`:
`if not isinstance(value, list): value = [value]`. -/
def wrapList : Obj → Obj
  | .pylist xs => .pylist xs
  | v => .pylist [v]

/-- `isinstance(v, list)`. -/
def isPyList : Obj → Bool
  | .pylist _ => true
  | _ => false

/-- `BaseField._apply_filter(filter_obj, value)`: wrap a non-list value in a
single-element list and render `self.lookup_operator(self._column,
value).to_sql()`. -/
def fieldApplyRaw (sa14 : Bool) (f : BaseFieldM) (value : Obj) : Except String Obj :=
  applyOperator sa14 f.lookup_operator f.column (some (wrapList value))

/-- `BaseField.apply_filter(filter_obj)`: look the value up in
`filter_obj.validated_data`; absent → `empty_sql()`; `None` with
`allow_none` unset → `empty_sql()`; otherwise `_apply_filter`. -/
def fieldApplyFilter (sa14 : Bool) (f : BaseFieldM) (validated_data : Data) :
    Except String Obj :=
  match dataGet validated_data f.data_source_name with
  | none => .ok empty_sql
  | some v =>
      if is_none v && !f.allow_none then .ok empty_sql
      else fieldApplyRaw sa14 f v

/-- `TypedField.validate`: `try: return self.type_(value) except Exception:
raise FieldValidationError(self.error_message.format(type_=...))`.  The
coercion `self.type_(value)` is passed in as a partial function (`none`
models the coercion raising). -/
def typedValidate (typeName : String) (coerce : Obj → Option Obj) (value : Obj) :
    Except String Obj :=
  match coerce value with
  | some r => .ok r
  | none => .error s!"Expected to be of type {typeName}"

/-- Python `str.strip()`: drop whitespace from both ends. -/
def pyStrip (s : String) : String :=
  .mk (((s.data.dropWhile Char.isWhitespace).reverse.dropWhile Char.isWhitespace).reverse)

/-- Worker for Python `str.split(sep)` with a one-character separator
(`"".split(",") == [""]`, separators are not kept). -/
def splitCharAux (sep : Char) : List Char → List (List Char)
  | [] => [[]]
  | c :: rest =>
      let r := splitCharAux sep rest
      if c = sep then [] :: r
      else
        match r with
        | g :: gs => (c :: g) :: gs
        | [] => [[c]]

/-- Python `s.split(sep)` for a one-character separator. -/
def pySplit (sep : Char) (s : String) : List String :=
  (splitCharAux sep s.data).map .mk

/-- Python `s.replace(c, "")`: drop every occurrence of the character. -/
def removeChar (c : Char) (s : String) : String :=
  .mk (s.data.filter (· ≠ c))

/-- Python `s.startswith(c)` for a one-character prefix. -/
def startsWithChar (c : Char) (s : String) : Bool :=
  match s.data with
  | x :: _ => x = c
  | [] => false

/-- Digit-string to number, strict: at least one digit, digits only. -/
def digitsToNat? (cs : List Char) : Option Nat :=
  if cs.isEmpty then none
  else
    cs.foldl
      (fun acc c =>
        match acc with
        | none => none
        | some n => if c.isDigit then some (n * 10 + (c.toNat - 48)) else none)
      (some 0)

/-- Python `int(s)` on a string: optional surrounding whitespace, optional
sign, then decimal digits; anything else raises (so `""`, `"1.0"`,
`"not a number"` all fail). -/
def strToInt? (s : String) : Option Int :=
  match (pyStrip s).data with
  | '-' :: rest => (digitsToNat? rest).map (fun n => -(n : Int))
  | '+' :: rest => (digitsToNat? rest).map (fun n => (n : Int))
  | cs => (digitsToNat? cs).map (fun n => (n : Int))

/-- Python `int(value)` on the modelled values: ints and bools convert,
strings parse strictly, everything else raises `TypeError`. -/
def pyIntCoerce : Obj → Option Obj
  | .pybool b => some (.pyint (if b then 1 else 0))
  | .pyint n => some (.pyint n)
  | .pystr s => (strToInt? s).map Obj.pyint
  | _ => none

/-- `IntegerField.validate` (`TypedField` with `type_ = int`). -/
def integerFieldValidate : Obj → Except String Obj :=
  typedValidate "int" pyIntCoerce

/-- Python `bool(value)`: the native truthy conversion, total — it raises for
no value. -/
def pyBoolCoerce (v : Obj) : Option Obj :=
  some (.pybool (truthy v))

/-- `BooleanField.validate` (`TypedField` with `type_ = bool`). -/
def booleanFieldValidate : Obj → Except String Obj :=
  typedValidate "bool" pyBoolCoerce

/-! ## Predicate folding (`BaseFilter.apply_fields`) -/

/-- `BaseFilter.extract_declared_field`: with no allow-list every entry is
kept; otherwise only entries whose name is allow-listed. -/
def extract_declared_field (declared_fields : List String)
    (fields : List (String × α)) : List (String × α) :=
  if declared_fields.isEmpty then fields
  else fields.filter (fun p => p.1 ∈ declared_fields)

/-- The slice of a filter instance that `apply_fields` reads: the ordered
field map of the class, the `Meta.fields` allow-list, the per-instance
combinator and the validated data. -/
structure FilterFieldsInst where
  declared_fields : List String
  fields : List (String × BaseFieldM)
  operator : OperatorClass
  validated_data : Data

/-- `BaseFilter.apply_fields`:

```
fields = self.extract_declared_field(self.fields)
if not fields: return empty_sql()
if len(fields.values()) == 1:
    return list(self.fields.values())[0].apply_filter(self)
return reduce(lambda f1, f2: self.operator(
    sql_expression=self.get_expression(f1),
    params=[self.get_expression(f2)]).to_sql(), fields.values())
```

Note the single-entry branch indexes `self.fields` (the full field map),
not the extracted `fields`. -/
def apply_fields (sa14 : Bool) (F : FilterFieldsInst) : Except String Obj :=
  match extract_declared_field F.declared_fields F.fields with
  | [] => .ok empty_sql
  | [_] =>
      match F.fields with
      | [] => .error "IndexError: list index out of range"
      | (_, f0) :: _ => fieldApplyFilter sa14 f0 F.validated_data
  | f1 :: f2 :: rest =>
      ((f2 :: rest).map Prod.snd).foldl
        (fun acc f =>
          match acc with
          | .error e => .error e
          | .ok e1 =>
              match fieldApplyFilter sa14 f F.validated_data with
              | .error e => .error e
              | .ok e2 => applyOperator sa14 F.operator e1 (some (.pylist [e2])))
        (fieldApplyFilter sa14 f1.2 F.validated_data)

/-! ## Paginator (`sqlalchemy_filters/paginator.py`) -/

/-- A `Paginator` after `__init__` has run; `count` stands for
`query.count()`. -/
structure Paginator where
  count : Nat
  page_size : Nat
  page : Int
  num_pages : Nat

/-- `Paginator.__init__(query, page, page_size)`:

```
self.page_size = page_size or self.count
self.page = (page or 1) if self.page_size != self.count else 1
self.num_pages = math.ceil(self.count / self.page_size) if self.page_size else 1
```
-/
def mkPaginator (count : Nat) (page : Int) (page_size : Nat) : Paginator :=
  let ps : Nat := if page_size ≠ 0 then page_size else count
  let pg : Int := if ps ≠ count then (if page ≠ 0 then page else 1) else 1
  let np : Nat := if ps ≠ 0 then (count + ps - 1) / ps else 1
  ⟨count, ps, pg, np⟩

/-- `Paginator.has_next_page`: `self.num_pages > self.page`. -/
def hasNextPage (p : Paginator) : Bool :=
  (p.num_pages : Int) > p.page

/-- `Paginator.has_previous_page`: `1 < self.page`. -/
def hasPreviousPage (p : Paginator) : Bool :=
  1 < p.page

/-! ## Ordering (`BaseFilter.order_by` / `_parse_order_by`)

The model is represented by the list of its attribute (column) names plus
its `__name__`. -/

/-- Wrap a string in the single quotes the source's f-string puts around the
offending attribute name. -/
def quoteSingle (s : String) : String :=
  "\x27" ++ s ++ "\x27"

/-- `BaseFilter._parse_order_by(_order_by)`: a `UnaryExpression` passes
through; a non-string returns `None`; a string is stripped, all `-` removed
to obtain the attribute name, looked up with
`getattr(self._model, name, None)` (an unknown or empty name raises
`OrderByException`), and rendered descending iff the stripped token starts
with `-`. -/
def parse_order_by (attrs : List String) (modelName : String) (ob : Obj) :
    Except String (Option Obj) :=
  match ob with
  | .unary n d => .ok (some (.unary n d))
  | .pystr s =>
      let t := pyStrip s
      let name := removeChar '-' t
      if name ≠ "" ∧ name ∈ attrs then
        .ok (some (.unary name (startsWithChar '-' t)))
      else
        .error
          (modelName ++ " does not have a field called " ++
            quoteSingle name ++ " to use in an ORDER BY clause.")
  | _ => .ok none

/-- Evaluate an effectful map left to right, propagating the first raised
exception — the evaluation order of the source's list comprehensions. -/
def exceptMapM (f : α → Except String β) : List α → Except String (List β)
  | [] => .ok []
  | x :: xs =>
      match f x with
      | .error e => .error e
      | .ok y =>
          match exceptMapM f xs with
          | .error e => .error e
          | .ok ys => .ok (y :: ys)

/-- `BaseFilter.order_by(query)`, reduced to the list of ordering
expressions handed to `query.order_by(*order_by)`; the empty list means the
query is returned unordered (both the `is_none` early return and the
`if not order_by` fallthrough). -/
def order_by (attrs : List String) (modelName : String) (spec : Obj) :
    Except String (List Obj) :=
  if is_none spec then .ok []
  else
    let parsedE : Except String (List (Option Obj)) :=
      match spec with
      | .pystr s =>
          exceptMapM (fun ob => parse_order_by attrs modelName (.pystr ob))
            ((pySplit ',' s).filter fun ob => ob ≠ "" ∧ pyStrip ob ≠ "")
      | .pylist xs => exceptMapM (parse_order_by attrs modelName) xs
      | other => (parse_order_by attrs modelName other).map (fun x => [x])
    match parsedE with
    | .error e => .error e
    | .ok parsed => .ok (parsed.filterMap id)

/-! ## Validation (`BaseFilter.validate` / `validate_fields` /
`validate_nested`, `NestedFilter.validate` / `get_data`)

A field is modelled by its data-source name together with its `validate`
method (an arbitrary coercion, e.g. `integerFieldValidate`); a filter class
by its ordinary fields and its nested filters.  Python's distinct exception
classes are kept distinguishable: `FieldValidationError` carries a message
(the `Except String` errors of field validators), `FilterValidationError`
an ordered list of `(field_name, message)` pairs (what its `json()`
exposes), and `ValueError` (from `NestedFilter.get_data`) a message. -/

/-- A declared ordinary field: `get_data_source_name()` plus the field's
`validate` method. -/
structure FieldSpec where
  data_source_name : String
  validate : Obj → Except String Obj

mutual
/-- A filter class: its `fields` and `nested` maps (in declaration order). -/
inductive FilterDef where
  | mk (fields : List FieldSpec) (nested : List NestedSpec)

/-- A `NestedFilter` field: `get_data_source_name()`, the `flat` flag and
the inner `filter_class`. -/
inductive NestedSpec where
  | mk (data_source_name : String) (flat : Bool) (filter_class : FilterDef)
end

def FilterDef.fields : FilterDef → List FieldSpec
  | .mk fs _ => fs

def FilterDef.nested : FilterDef → List NestedSpec
  | .mk _ ns => ns

def NestedSpec.data_source_name : NestedSpec → String
  | .mk d _ _ => d

def NestedSpec.flat : NestedSpec → Bool
  | .mk _ f _ => f

def NestedSpec.filter_class : NestedSpec → FilterDef
  | .mk _ _ fc => fc

/-- An exception escaping `validate()`. -/
inductive PyError where
  | valueError (msg : String)
  | filterValidationError (field_errors : List (String × String))

/-- The loop body of `BaseFilter.validate_fields`: skip absent values,
store each successfully validated value in `validated_data` under the
field's data-source name, and append each `FieldValidationError` (tagged
with that name via `set_field_name`) to the running error list. -/
def validateFieldsLoop (data : Data) :
    List FieldSpec → Data → List (String × String) → Data × List (String × String)
  | [], vd, errs => (vd, errs)
  | f :: rest, vd, errs =>
      match dataGet data f.data_source_name with
      | none => validateFieldsLoop data rest vd errs
      | some v =>
          match f.validate v with
          | .ok r => validateFieldsLoop data rest (dataSet vd f.data_source_name r) errs
          | .error m => validateFieldsLoop data rest vd (errs ++ [(f.data_source_name, m)])

/-- `BaseFilter.validate_fields`: returns the (mutated) `validated_data`
and, when any error was collected, the raised `FilterValidationError`. -/
def validate_fields (fields : List FieldSpec) (data : Data) :
    Data × Option PyError :=
  let (vd, errs) := validateFieldsLoop data fields [] []
  (vd, if errs.isEmpty then none else some (.filterValidationError errs))

/-- `NestedFilter.get_data(parent_filter_obj)`: with `flat` the parent's
whole data; otherwise the sub-dict stored under the data-source name
(`value or {}`), raising `ValueError` when a truthy non-dict sits there.
(The source message also names the parent filter class, which the model
does not carry.) -/
def nestedGetData (parent_data : Data) (n : NestedSpec) : Except String Data :=
  if n.flat then .ok parent_data
  else
    match dataGet parent_data n.data_source_name with
    | none => .ok []
    | some v =>
        if truthy v then
          match v with
          | .pydict entries => .ok entries
          | _ =>
              .error
                (s!"The value of the key {n.data_source_name} is expected " ++
                  "to be a dict since flat is set to False.")
        else .ok []

/-- The observable outcome of `validate()` on a filter instance: the
instance's `validated_data`, its `validated` flag (initialised to `False`
by `MarshmallowValidatorFilterMixin.__init__`) and the exception raised, if
any. -/
structure ValidateResult where
  validated_data : Data
  validated : Bool
  raised : Option PyError

mutual
/-- `BaseFilter.validate` (as reached through
`MarshmallowValidatorFilterMixin.validate` with no marshmallow schema):
run `validate_fields`, then `validate_nested`, and set `validated = True`
only when neither raised. -/
def runValidate : FilterDef → Data → ValidateResult
  | .mk fields nested, data =>
      match validate_fields fields data with
      | (vd, some e) => ⟨vd, false, some e⟩
      | (vd, none) =>
          match runValidateNested nested data with
          | some e => ⟨vd, false, some e⟩
          | none => ⟨vd, true, none⟩

/-- `BaseFilter.validate_nested`: for each nested filter, extract its data
and validate a freshly built inner filter instance.  The loop's
`except FieldValidationError` clause never fires, because an inner
validation failure raises `FilterValidationError` (and `get_data` a
`ValueError`), neither of which is a `FieldValidationError`; both therefore
propagate immediately, and the loop's own error list stays empty, so its
final `FilterValidationError(field_errors=errors)` is never raised. -/
def runValidateNested : List NestedSpec → Data → Option PyError
  | [], _ => none
  | .mk dsn fl fc :: rest, data =>
      match nestedGetData data (.mk dsn fl fc) with
      | .error m => some (.valueError m)
      | .ok d =>
          match (runValidate fc d).raised with
          | some e => some e
          | none => runValidateNested rest data
end

/-- The field-scoped errors `validate_fields` collects over a given input:
one `(data_source_name, message)` pair for each declared field whose value
is present but fails its `validate` method, in declaration order.  This is
an independent characterization used to state theorems about
`validate_fields` / `runValidate`. -/
def collectFieldErrors (data : Data) (fields : List FieldSpec) :
    List (String × String) :=
  fields.filterMap fun f =>
    match dataGet data f.data_source_name with
    | none => none
    | some v =>
        match f.validate v with
        | .ok _ => none
        | .error m => some (f.data_source_name, m)

/-! ## Theorems -/

/-- C4 (counterexample): the claim that a `Paginator` always has
`page ≥ 1` and `num_pages ≥ 1` fails for a count of 0, page -2, page size
5: `__init__` keeps the negative page (`page or 1` only replaces a *zero*
page) and computes `ceil(0 / 5) = 0` pages. -/
theorem paginator_clamping_claim_false :
    ¬ (1 ≤ (mkPaginator 0 (-2) 5).page ∧ 1 ≤ (mkPaginator 0 (-2) 5).num_pages) := by
  decide

/-- C4 (amended): what `Paginator.__init__` actually computes: the
effective page size falls back to the count when the requested size is 0;
the current page is 1 exactly when the requested page is 0 or the
effective page size equals the count, and is otherwise the requested page
unchanged (no clamping — that happens in `BaseFilter.paginate`, before the
`Paginator` is built); the number of pages is `ceil(count / page_size)`
when the effective page size is nonzero and 1 otherwise, hence `≥ 1`
whenever the count is, and `page ≥ 1` whenever the requested page is. -/
theorem paginator_init_amended (c : Nat) (p : Int) (s : Nat) :
    (mkPaginator c p s).page_size = (if s = 0 then c else s) ∧
    (mkPaginator c p s).page =
      (if p = 0 ∨ (mkPaginator c p s).page_size = c then 1 else p) ∧
    (mkPaginator c p s).num_pages =
      (if (mkPaginator c p s).page_size = 0 then 1
        else (c + (mkPaginator c p s).page_size - 1) / (mkPaginator c p s).page_size) ∧
    (1 ≤ c → 1 ≤ (mkPaginator c p s).num_pages) ∧
    (1 ≤ p → 1 ≤ (mkPaginator c p s).page) := by
  refine ⟨?_, ?_, ?_, ?_, ?_⟩
  · simp only [mkPaginator]
    split_ifs <;> first | rfl | omega
  · simp only [mkPaginator]
    split_ifs <;> first | rfl | omega
  · simp only [mkPaginator]
    split_ifs <;> first | rfl | omega
  · intro hc
    simp only [mkPaginator]
    split_ifs <;>
      first
        | omega
        | (rw [Nat.one_le_div_iff (by omega)]; omega)
  · intro hp
    simp only [mkPaginator]
    split_ifs <;> omega

/-- C4 (witness): the amended characterization evaluated at the spec's own
example (7 rows, page 4, page size 2). -/
theorem paginator_init_amended_witness :
    1 ≤ (mkPaginator 7 4 2).num_pages ∧ 1 ≤ (mkPaginator 7 4 2).page :=
  ⟨(paginator_init_amended 7 4 2).2.2.2.1 (by decide),
   (paginator_init_amended 7 4 2).2.2.2.2 (by decide)⟩

/-- C6: the "is empty" / "is not empty" operators are *not* pre-bound to
null on instances: `IsEmptyOperator(column("x"))` ends up with
`params == []` because `BaseOperator.__init__` assigns
`self.params = params or []`, shadowing the class attribute
`params = [None]`; `to_sql()` then calls the binary `is_` with a single
operand (a `TypeError`) instead of `column.is_(None)`.  The last two
conjuncts show the `is` / `is not` comparison against `None` that *would*
be produced had the instance carried `[None]`. -/
theorem is_empty_operator_params_bug :
    mkOperator .IsEmptyOperator (.col "x") none = .ok ⟨.IsEmptyOperator, .col "x", []⟩ ∧
    classParams .IsEmptyOperator = [.pynone] ∧
    toSql true ⟨.IsEmptyOperator, .col "x", []⟩ = .error "TypeError: wrong number of operands" ∧
    toSql false ⟨.IsEmptyOperator, .col "x", []⟩ = .error "TypeError: wrong number of operands" ∧
    mkOperator .IsNotEmptyOperator (.col "x") none = .ok ⟨.IsNotEmptyOperator, .col "x", []⟩ ∧
    toSql false ⟨.IsEmptyOperator, .col "x", [.pynone]⟩ = .ok (.opExpr .is_ (.col "x") [.pynone]) ∧
    toSql false ⟨.IsNotEmptyOperator, .col "x", [.pynone]⟩ = .ok (.opExpr .isnot (.col "x") [.pynone]) :=
  ⟨rfl, rfl, rfl, rfl, rfl, rfl, rfl⟩

/-- C5 (counterexample): not every operator algebra member maps two
literal-true placeholders to a placeholder: `RangeOperator`'s arity check
rejects the single-parameter application with `InvalidParamError` before
any SQL is produced. -/
theorem placeholder_combination_claim_false :
    applyOperator true .RangeOperator empty_sql (some (.pylist [empty_sql])) =
      .error "RangeOperator.params should have exactly 2 values, got 1." ∧
    applyOperator true .RangeOperator empty_sql (some (.pylist [empty_sql])) ≠ .ok empty_sql ∧
    isAlgebraMember .RangeOperator = true :=
  ⟨rfl, fun h => Except.noConfusion h, rfl⟩

/-- C5 (amended): under the SQLAlchemy-1.4 compatibility wrapper (the case
the cited `sa_1_4_compatible` shim exists for), every operator algebra
member except `RangeOperator`, applied to two literal-true placeholder
operands, yields exactly the literal-true placeholder. -/
theorem placeholder_combination_amended (cls : OperatorClass)
    (h1 : isAlgebraMember cls = true) (h2 : cls ≠ .RangeOperator) :
    applyOperator true cls empty_sql (some (.pylist [empty_sql])) = .ok empty_sql := by
  cases cls
  case BaseOperator => simp [isAlgebraMember] at h1
  case RangeOperator => exact absurd rfl h2
  all_goals rfl

/-- C5 (witness): the amended statement at the `AndOperator` combinator. -/
theorem placeholder_combination_amended_witness :
    applyOperator true .AndOperator empty_sql (some (.pylist [empty_sql])) = .ok empty_sql :=
  placeholder_combination_amended .AndOperator rfl (by decide)

/-- C8: `check_params` rejects any non-list `params` with an
`InvalidParamError` naming the operator class and the offending type, and
`RangeOperator` construction rejects every list whose length is not
exactly 2 with a message naming the required count (2), while accepting
every 2-element list. -/
theorem check_params_spec (cls : OperatorClass) (v e : Obj) (xs : List Obj) :
    (isPyList v = false →
      check_params cls v =
        .error s!"{className cls}.params expected to be a list, got {pyTypeName v}.") ∧
    (xs.length ≠ 2 →
      mkOperator .RangeOperator e (some (.pylist xs)) =
        .error s!"RangeOperator.params should have exactly 2 values, got {xs.length}.") ∧
    (xs.length = 2 →
      mkOperator .RangeOperator e (some (.pylist xs)) = .ok ⟨.RangeOperator, e, xs⟩) := by
  refine ⟨?_, ?_, ?_⟩
  · intro h
    cases v <;> first | rfl | simp [isPyList] at h
  · intro h
    cases xs with
    | nil => rfl
    | cons x rest =>
        have h1 : rest.length ≠ 1 := by simpa using h
        simp [mkOperator, check_params, truthy, h1, className]
        rfl
  · intro h
    cases xs with
    | nil => simp at h
    | cons x rest => simp [mkOperator, check_params, truthy, h]

/-- C8 (witness): the contract evaluated at the test-suite's own inputs:
`BaseOperator(sql_expression="A", params="A")` and
`RangeOperator(sql_expression="A", params=[])` fail, a 2-element range
succeeds. -/
theorem check_params_spec_witness :
    check_params .BaseOperator (.pystr "A") =
      .error "BaseOperator.params expected to be a list, got str." ∧
    mkOperator .RangeOperator (.pystr "A") (some (.pylist [])) =
      .error "RangeOperator.params should have exactly 2 values, got 0." ∧
    mkOperator .RangeOperator (.pystr "A") (some (.pylist [.pyint 0, .pyint 10])) =
      .ok ⟨.RangeOperator, .pystr "A", [.pyint 0, .pyint 10]⟩ :=
  ⟨(check_params_spec .BaseOperator (.pystr "A") (.pystr "A") []).1 rfl,
   (check_params_spec .BaseOperator (.pystr "A") (.pystr "A") []).2.1 (by decide),
   (check_params_spec .BaseOperator (.pystr "A") (.pystr "A") [.pyint 0, .pyint 10]).2.2 rfl⟩

/-- C10: `BooleanField.validate` is total — Python's `bool(value)` raises
for no value, so the `except` branch of `TypedField.validate` is
unreachable and every input comes back as its native truthy conversion —
whereas e.g. `IntegerField.validate` does reach its failure branch. -/
theorem boolean_field_validate_total (v : Obj) :
    booleanFieldValidate v = .ok (.pybool (truthy v)) ∧
    integerFieldValidate (.pystr "not a number") = .error "Expected to be of type int" :=
  ⟨rfl, rfl⟩

/-- C2: with an allow-list restricting two declared fields `{a, b}` to the
single field `b`, `apply_fields` returns the fragment of `a` — the first
entry of the *full* field map — because the single-entry branch reads
`list(self.fields.values())[0]` instead of the extracted allow-listed
entry.  (The SQLAlchemy-1.4 wrapper plays no role at this input.) -/
theorem apply_fields_single_declared_bug :
    extract_declared_field ["b"]
      [("a", (⟨"a", false, .EqualsOperator, .col "colA"⟩ : BaseFieldM)),
        ("b", ⟨"b", false, .EqualsOperator, .col "colB"⟩)] =
      [("b", ⟨"b", false, .EqualsOperator, .col "colB"⟩)] ∧
    apply_fields true ⟨["b"],
        [("a", ⟨"a", false, .EqualsOperator, .col "colA"⟩),
          ("b", ⟨"b", false, .EqualsOperator, .col "colB"⟩)],
        .AndOperator, [("a", .pyint 1), ("b", .pyint 2)]⟩ =
      .ok (.opExpr .eq (.col "colA") [.pyint 1]) ∧
    fieldApplyFilter true ⟨"b", false, .EqualsOperator, .col "colB"⟩
        [("a", .pyint 1), ("b", .pyint 2)] =
      .ok (.opExpr .eq (.col "colB") [.pyint 2]) ∧
    apply_fields true ⟨["b"],
        [("a", ⟨"a", false, .EqualsOperator, .col "colA"⟩),
          ("b", ⟨"b", false, .EqualsOperator, .col "colB"⟩)],
        .AndOperator, [("a", .pyint 1), ("b", .pyint 2)]⟩ ≠
      fieldApplyFilter true ⟨"b", false, .EqualsOperator, .col "colB"⟩
        [("a", .pyint 1), ("b", .pyint 2)] := by
  refine ⟨rfl, rfl, rfl, ?_⟩
  intro h
  have h' : Except.ok (ε := String) (Obj.opExpr .eq (.col "colA") [.pyint 1]) =
      .ok (.opExpr .eq (.col "colB") [.pyint 2]) := h
  injection h' with h1
  injection h1 with _ h2 _
  injection h2 with h3
  exact absurd h3 (by decide)

/-- C3 (counterexample): `apply_filter` is not total over the four input
situations: a field configured with `RangeOperator` as its
`lookup_operator` and a present scalar value raises `InvalidParamError`
from the operator's arity check instead of returning the operator applied
to the column and `[value]`. -/
theorem apply_filter_totality_claim_false :
    fieldApplyFilter true ⟨"age", false, .RangeOperator, .col "age"⟩ [("age", .pyint 5)] =
      .error "RangeOperator.params should have exactly 2 values, got 1." ∧
    fieldApplyFilter true ⟨"age", false, .RangeOperator, .col "age"⟩ [("age", .pyint 5)] ≠
      .ok (.opExpr .betweenOp (.col "age") [.pyint 5]) :=
  ⟨rfl, fun h => Except.noConfusion h⟩

/-- C3 (amended): the four-way case analysis of `BaseField.apply_filter`,
with the present-value branches returning whatever
`lookup_operator(column, wrapped_value).to_sql()` returns — which is the
operator applied to the column and the singleton-wrapped value whenever
the operator's parameter check accepts it, but an `InvalidParamError` /
`TypeError` when it does not (e.g. `RangeOperator` on a 1-element list):
absent → placeholder; `None` with `allow_none` unset → placeholder;
`None` with `allow_none` set → operator on `[None]`; present non-`None`
value → operator on the value wrapped in a singleton list unless it is
already a list.  The last conjunct grounds the default configuration:
`EqualsOperator` over a column renders `column == value`. -/
theorem apply_filter_cases_amended (sa14 : Bool) (f : BaseFieldM) (vd : Data) :
    (dataGet vd f.data_source_name = none →
      fieldApplyFilter sa14 f vd = .ok empty_sql) ∧
    (dataGet vd f.data_source_name = some .pynone → f.allow_none = false →
      fieldApplyFilter sa14 f vd = .ok empty_sql) ∧
    (dataGet vd f.data_source_name = some .pynone → f.allow_none = true →
      fieldApplyFilter sa14 f vd =
        applyOperator sa14 f.lookup_operator f.column (some (.pylist [.pynone]))) ∧
    (∀ v, dataGet vd f.data_source_name = some v → is_none v = false →
      fieldApplyFilter sa14 f vd =
        applyOperator sa14 f.lookup_operator f.column (some (wrapList v))) ∧
    (∀ v cname, dataGet vd f.data_source_name = some v → is_none v = false →
      isPyList v = false → f.lookup_operator = .EqualsOperator → f.column = .col cname →
      fieldApplyFilter sa14 f vd = .ok (.opExpr .eq (.col cname) [v])) := by
  refine ⟨?_, ?_, ?_, ?_, ?_⟩
  · intro h
    simp [fieldApplyFilter, h]
  · intro h ha
    simp [fieldApplyFilter, h, is_none, ha]
  · intro h ha
    simp [fieldApplyFilter, h, is_none, ha, fieldApplyRaw, wrapList]
  · intro v h hn
    simp [fieldApplyFilter, h, hn, fieldApplyRaw]
  · intro v cname h hn hl hop hcol
    cases sa14 <;> cases v <;>
      simp_all [fieldApplyFilter, fieldApplyRaw, wrapList, applyOperator, mkOperator,
        check_params, truthy, toSql, getSqlExpression, isEmptyTextClause, isTextClause,
        rawToSql, sqlOp, applySqlOperator, opArity, is_none, isPyList]

/-- C3 (witness): the amended case analysis evaluated on a concrete
equals-field: absent key, allowed `None`, and a present value. -/
theorem apply_filter_cases_amended_witness :
    fieldApplyFilter true ⟨"age", false, .EqualsOperator, .col "age"⟩ [] = .ok empty_sql ∧
    fieldApplyFilter true ⟨"age", true, .EqualsOperator, .col "age"⟩ [("age", .pynone)] =
      applyOperator true .EqualsOperator (.col "age") (some (.pylist [.pynone])) ∧
    fieldApplyFilter true ⟨"age", false, .EqualsOperator, .col "age"⟩ [("age", .pyint 5)] =
      .ok (.opExpr .eq (.col "age") [.pyint 5]) :=
  ⟨(apply_filter_cases_amended true ⟨"age", false, .EqualsOperator, .col "age"⟩ []).1 rfl,
   (apply_filter_cases_amended true ⟨"age", true, .EqualsOperator, .col "age"⟩
      [("age", .pynone)]).2.2.1 rfl rfl,
   (apply_filter_cases_amended true ⟨"age", false, .EqualsOperator, .col "age"⟩
      [("age", .pyint 5)]).2.2.2.2 (.pyint 5) "age" rfl rfl rfl rfl rfl⟩

/-- Splitting a character list that does not contain the separator yields
the list itself as the only token. -/
theorem splitCharAux_eq_single (sep : Char) :
    ∀ l : List Char, sep ∉ l → splitCharAux sep l = [l] := by
  intro l
  induction l with
  | nil => intro _; rfl
  | cons c rest ih =>
      intro h
      have hc : ¬(c = sep) := fun e => h (e ▸ List.mem_cons_self c rest)
      have hrest := ih fun m => h (List.mem_cons_of_mem _ m)
      simp [splitCharAux, hc, hrest]

/-- An `exceptMapM` whose function succeeds pointwise maps the list. -/
theorem exceptMapM_ok_of_forall {α β : Type} (f : α → Except String (Option β)) (g : α → β) :
    ∀ l : List α, (∀ t ∈ l, f t = .ok (some (g t))) →
      exceptMapM f l = .ok (l.map fun t => some (g t)) := by
  intro l
  induction l with
  | nil => intro _; rfl
  | cons x xs ih =>
      intro h
      have hx := h x (List.mem_cons_self _ _)
      have hxs := ih fun t ht => h t (List.mem_cons_of_mem _ ht)
      simp [exceptMapM, hx, hxs]

/-- `exceptMapM` over a list of wrapped strings is `exceptMapM` of the
composite. -/
theorem exceptMapM_map_pystr (f : Obj → Except String (Option Obj)) :
    ∀ xs : List String,
      exceptMapM f (xs.map Obj.pystr) = exceptMapM (fun tk => f (.pystr tk)) xs := by
  intro xs
  induction xs with
  | nil => rfl
  | cons x rest ih => simp [exceptMapM, ih]

/-- Filtering out `none`s from an all-`some` map is the underlying map. -/
theorem filterMap_some_map {α β : Type} (g : α → β) :
    ∀ l : List α, l.filterMap (fun t => some (g t)) = l.map g := by
  intro l
  induction l with
  | nil => rfl
  | cons x xs ih => simp [List.filterMap_cons, ih]

/-- Reduction of `order_by` at a string specification. -/
theorem order_by_pystr (attrs : List String) (mn : String) (s : String) :
    order_by attrs mn (.pystr s) =
      match exceptMapM (fun ob => parse_order_by attrs mn (.pystr ob))
          ((pySplit ',' s).filter fun ob => ob ≠ "" ∧ pyStrip ob ≠ "") with
      | .error e => .error e
      | .ok parsed => .ok (parsed.filterMap id) :=
  rfl

/-- Reduction of `order_by` at a list specification. -/
theorem order_by_pylist (attrs : List String) (mn : String) (l : List Obj) :
    order_by attrs mn (.pylist l) =
      match exceptMapM (parse_order_by attrs mn) l with
      | .error e => .error e
      | .ok parsed => .ok (parsed.filterMap id) :=
  rfl

/-- C7: `order_by` string parsing: the specification string is split on
commas and tokens that are blank after stripping are dropped; each kept
token, stripped and with its `-` removed, must name a model attribute and
orders by it, descending exactly when the stripped token starts with `-`;
an unknown name raises an order-by error naming the model and the
offending name; a purely blank / comma-only string orders by nothing; and
a list specification resolves its entries with the same per-token rule. -/
theorem order_by_parsing_spec (attrs : List String) (mn : String) (s t : String)
    (xs : List String) :
    ((∀ tk ∈ (pySplit ',' s).filter (fun tk => tk ≠ "" ∧ pyStrip tk ≠ ""),
        removeChar '-' (pyStrip tk) ≠ "" ∧ removeChar '-' (pyStrip tk) ∈ attrs) →
      order_by attrs mn (.pystr s) =
        .ok (((pySplit ',' s).filter (fun tk => tk ≠ "" ∧ pyStrip tk ≠ "")).map
          fun tk => .unary (removeChar '-' (pyStrip tk)) (startsWithChar '-' (pyStrip tk)))) ∧
    ((∀ tk ∈ pySplit ',' s, pyStrip tk = "") → order_by attrs mn (.pystr s) = .ok []) ∧
    (',' ∉ t.data → pyStrip t ≠ "" → removeChar '-' (pyStrip t) ∉ attrs →
      order_by attrs mn (.pystr t) =
        .error (mn ++ " does not have a field called " ++
          quoteSingle (removeChar '-' (pyStrip t)) ++ " to use in an ORDER BY clause.")) ∧
    ((∀ tk ∈ xs, removeChar '-' (pyStrip tk) ≠ "" ∧ removeChar '-' (pyStrip tk) ∈ attrs) →
      order_by attrs mn (.pylist (xs.map Obj.pystr)) =
        .ok (xs.map fun tk =>
          .unary (removeChar '-' (pyStrip tk)) (startsWithChar '-' (pyStrip tk)))) := by
  refine ⟨?_, ?_, ?_, ?_⟩
  · intro h
    have H := exceptMapM_ok_of_forall (fun tk => parse_order_by attrs mn (.pystr tk))
      (fun tk => Obj.unary (removeChar '-' (pyStrip tk)) (startsWithChar '-' (pyStrip tk)))
      ((pySplit ',' s).filter fun tk => tk ≠ "" ∧ pyStrip tk ≠ "")
      (fun tk ht => by
        have hc := h tk ht
        simp [parse_order_by, hc.1, hc.2])
    rw [order_by_pystr, H]
    simp [List.filterMap_map]
    exact filterMap_some_map _ _
  · intro h
    have hfil : (pySplit ',' s).filter (fun tk => tk ≠ "" ∧ pyStrip tk ≠ "") = [] := by
      rw [List.filter_eq_nil_iff]
      intro tk htk
      simp [h tk htk]
    rw [order_by_pystr, hfil]
    rfl
  · intro hcomma hblank hmem
    have hsingle : pySplit ',' t = [t] := by
      unfold pySplit
      rw [splitCharAux_eq_single ',' t.data hcomma]
      rfl
    have ht : t ≠ "" := by
      intro e
      exact hblank (by rw [e]; rfl)
    have hfil : (pySplit ',' t).filter (fun tk => tk ≠ "" ∧ pyStrip tk ≠ "") = [t] := by
      rw [hsingle]
      simp [ht, hblank]
    have hparse : parse_order_by attrs mn (.pystr t) =
        .error (mn ++ " does not have a field called " ++
          quoteSingle (removeChar '-' (pyStrip t)) ++ " to use in an ORDER BY clause.") := by
      have hc : ¬(removeChar '-' (pyStrip t) ≠ "" ∧ removeChar '-' (pyStrip t) ∈ attrs) :=
        fun hc => hmem hc.2
      simp only [parse_order_by]
      rw [if_neg hc]
    rw [order_by_pystr, hfil]
    simp [exceptMapM, hparse]
  · intro h
    have H := exceptMapM_ok_of_forall (fun tk => parse_order_by attrs mn (.pystr tk))
      (fun tk => Obj.unary (removeChar '-' (pyStrip tk)) (startsWithChar '-' (pyStrip tk)))
      xs
      (fun tk ht => by
        have hc := h tk ht
        simp [parse_order_by, hc.1, hc.2])
    rw [order_by_pylist, exceptMapM_map_pystr, H]
    simp [List.filterMap_map]
    exact filterMap_some_map _ _

/-- C7 (witness): the spec's own examples: `"first_name,-birth_date"`
orders ascending by first_name then descending by birth_date; a blank /
comma-only string orders by nothing; `-unknown` raises the order-by
error; a list specification resolves per token. -/
theorem order_by_parsing_spec_witness :
    order_by ["first_name", "birth_date"] "User" (.pystr "first_name,-birth_date") =
      .ok [.unary "first_name" false, .unary "birth_date" true] ∧
    order_by ["first_name"] "User" (.pystr " , ,,") = .ok [] ∧
    order_by ["first_name"] "User" (.pystr "-unknown") =
      .error ("User does not have a field called " ++ quoteSingle "unknown" ++
        " to use in an ORDER BY clause.") ∧
    order_by ["a", "b"] "User" (.pylist [.pystr "-a", .pystr "b"]) =
      .ok [.unary "a" true, .unary "b" false] :=
  ⟨(order_by_parsing_spec ["first_name", "birth_date"] "User" "first_name,-birth_date"
      "" []).1 (by decide),
   (order_by_parsing_spec ["first_name"] "User" " , ,," "" []).2.1 (by decide),
   (order_by_parsing_spec ["first_name"] "User" "" "-unknown" []).2.2.1
      (by decide) (by decide) (by decide),
   (order_by_parsing_spec ["a", "b"] "User" "" "" ["-a", "b"]).2.2.2 (by decide)⟩

/-- Looking a key up right after setting it yields the new value. -/
theorem dataGet_dataSet_self (d : Data) (key : String) (val : Obj) :
    dataGet (dataSet d key val) key = some val := by
  induction d with
  | nil => simp [dataSet, dataGet]
  | cons kv rest ih =>
      obtain ⟨k, v⟩ := kv
      by_cases h : k = key
      · simp [dataSet, dataGet, h]
      · simp [dataSet, dataGet, h, ih]

/-- Setting one key leaves every other key's binding unchanged. -/
theorem dataGet_dataSet_ne (d : Data) (key other : String) (val : Obj)
    (h : other ≠ key) :
    dataGet (dataSet d key val) other = dataGet d other := by
  induction d with
  | nil => simp [dataSet, dataGet, Ne.symm h]
  | cons kv rest ih =>
      obtain ⟨k, v⟩ := kv
      by_cases hk : k = key
      · subst hk
        simp [dataSet, dataGet, Ne.symm h]
      · simp [dataSet, dataGet, hk, ih]

/-- The error list produced by the `validate_fields` loop: whatever was
already accumulated, followed by one field-scoped error per present but
invalid field, in declaration order. -/
theorem validateFieldsLoop_errs (data : Data) :
    ∀ (fields : List FieldSpec) (vd : Data) (errs : List (String × String)),
      (validateFieldsLoop data fields vd errs).2 = errs ++ collectFieldErrors data fields := by
  intro fields
  induction fields with
  | nil => intro vd errs; simp [validateFieldsLoop, collectFieldErrors]
  | cons f rest ih =>
      intro vd errs
      cases hv : dataGet data f.data_source_name with
      | none => simp [validateFieldsLoop, hv, collectFieldErrors, List.filterMap_cons, ih]
      | some v =>
          cases hval : f.validate v with
          | ok r => simp [validateFieldsLoop, hv, hval, collectFieldErrors, List.filterMap_cons, ih]
          | error m => simp [validateFieldsLoop, hv, hval, collectFieldErrors, List.filterMap_cons, ih]

/-- Fields whose data-source name differs from a key never touch that key's
binding in `validated_data`. -/
theorem validateFieldsLoop_vd_preserved (data : Data) (key : String) :
    ∀ (fields : List FieldSpec) (vd : Data) (errs : List (String × String)),
      (∀ f ∈ fields, f.data_source_name ≠ key) →
      dataGet (validateFieldsLoop data fields vd errs).1 key = dataGet vd key := by
  intro fields
  induction fields with
  | nil => intro vd errs _; rfl
  | cons f rest ih =>
      intro vd errs h
      have hf := h f (List.mem_cons_self _ _)
      have hrest : ∀ g ∈ rest, g.data_source_name ≠ key :=
        fun g hg => h g (List.mem_cons_of_mem _ hg)
      cases hv : dataGet data f.data_source_name with
      | none => simpa [validateFieldsLoop, hv] using ih vd errs hrest
      | some v =>
          cases hval : f.validate v with
          | ok r =>
              have := ih (dataSet vd f.data_source_name r) errs hrest
              simpa [validateFieldsLoop, hv, hval,
                dataGet_dataSet_ne vd f.data_source_name key r (fun e => hf e.symm)] using this
          | error m =>
              simpa [validateFieldsLoop, hv, hval] using
                ih vd (errs ++ [(f.data_source_name, m)]) hrest

/-- After the `validate_fields` loop, a present field that validated
successfully is bound to its coerced value (assuming distinct data-source
names). -/
theorem validateFieldsLoop_vd_lookup (data : Data) :
    ∀ (fields : List FieldSpec) (vd : Data) (errs : List (String × String)),
      (fields.map FieldSpec.data_source_name).Nodup →
      ∀ f ∈ fields, ∀ v r, dataGet data f.data_source_name = some v →
        f.validate v = .ok r →
        dataGet (validateFieldsLoop data fields vd errs).1 f.data_source_name = some r := by
  intro fields
  induction fields with
  | nil => intro vd errs _ f hf; exact absurd hf (by simp)
  | cons g rest ih =>
      intro vd errs hnd f hf v r hv hval
      rw [List.map_cons, List.nodup_cons] at hnd
      rcases List.mem_cons.mp hf with he | hmem
      · subst he
        have hrest : ∀ f' ∈ rest, f'.data_source_name ≠ f.data_source_name := by
          intro f' hf' e
          exact hnd.1 (e ▸ List.mem_map_of_mem FieldSpec.data_source_name hf')
        rw [show validateFieldsLoop data (f :: rest) vd errs =
            validateFieldsLoop data rest (dataSet vd f.data_source_name r) errs by
          simp [validateFieldsLoop, hv, hval]]
        rw [validateFieldsLoop_vd_preserved data f.data_source_name rest _ _ hrest]
        exact dataGet_dataSet_self vd f.data_source_name r
      · cases hgv : dataGet data g.data_source_name with
        | none =>
            rw [show validateFieldsLoop data (g :: rest) vd errs =
                validateFieldsLoop data rest vd errs by simp [validateFieldsLoop, hgv]]
            exact ih vd errs hnd.2 f hmem v r hv hval
        | some gv =>
            cases hgval : g.validate gv with
            | ok gr =>
                rw [show validateFieldsLoop data (g :: rest) vd errs =
                    validateFieldsLoop data rest (dataSet vd g.data_source_name gr) errs by
                  simp [validateFieldsLoop, hgv, hgval]]
                exact ih _ errs hnd.2 f hmem v r hv hval
            | error gm =>
                rw [show validateFieldsLoop data (g :: rest) vd errs =
                    validateFieldsLoop data rest vd (errs ++ [(g.data_source_name, gm)]) by
                  simp [validateFieldsLoop, hgv, hgval]]
                exact ih vd _ hnd.2 f hmem v r hv hval

/-- The state `runValidate` leaves behind always carries the
`validated_data` accumulated by the field loop, whichever way validation
ends. -/
theorem runValidate_validated_data (fields : List FieldSpec)
    (nested : List NestedSpec) (data : Data) :
    (runValidate (.mk fields nested) data).validated_data =
      (validateFieldsLoop data fields [] []).1 := by
  simp only [runValidate, validate_fields]
  rcases validateFieldsLoop data fields [] [] with ⟨vd, errs⟩
  by_cases he : errs.isEmpty
  · simp only [he, if_pos]
    cases runValidateNested nested data <;> rfl
  · simp [he]

/-- How `runValidate` routes errors: field errors first, then nested
validation. -/
theorem runValidate_raised (fields : List FieldSpec)
    (nested : List NestedSpec) (data : Data) :
    (runValidate (.mk fields nested) data).raised =
      (if collectFieldErrors data fields = [] then runValidateNested nested data
        else some (.filterValidationError (collectFieldErrors data fields))) ∧
    (runValidate (.mk fields nested) data).validated =
      ((collectFieldErrors data fields = []) ∧
        runValidateNested nested data = none : Prop) := by
  have herr := validateFieldsLoop_errs data fields [] []
  simp only [runValidate, validate_fields]
  rcases hl : validateFieldsLoop data fields [] [] with ⟨vd, errs⟩
  rw [hl] at herr
  simp only at herr
  subst herr
  by_cases he : collectFieldErrors data fields = []
  · simp only [he, List.isEmpty_nil, if_pos]
    cases hn : runValidateNested nested data <;> simp [hn]
  · have : ¬(List.isEmpty (collectFieldErrors data fields) = true) := by
      simpa [List.isEmpty_iff] using he
    simp [this, he]

/-- C9: `validate()` is not atomic on failure: with distinct data-source
names, every field whose present raw value coerces successfully is left in
`validated_data` under its data-source name even when some other field
fails, in which case the instance raises the aggregate
`FilterValidationError` over exactly the collected field errors and its
`validated` flag stays `False`. -/
theorem validate_partial_state_spec (fields : List FieldSpec)
    (nested : List NestedSpec) (data : Data) :
    ((fields.map FieldSpec.data_source_name).Nodup →
      ∀ f ∈ fields, ∀ v r, dataGet data f.data_source_name = some v →
        f.validate v = .ok r →
        dataGet (runValidate (.mk fields nested) data).validated_data
          f.data_source_name = some r) ∧
    ((∃ f ∈ fields, ∃ v m, dataGet data f.data_source_name = some v ∧
        f.validate v = .error m) →
      (runValidate (.mk fields nested) data).validated = false ∧
      (runValidate (.mk fields nested) data).raised =
        some (.filterValidationError (collectFieldErrors data fields)) ∧
      collectFieldErrors data fields ≠ []) := by
  obtain ⟨hr, hvd⟩ := runValidate_raised fields nested data
  constructor
  · intro hnd f hf v r hv hval
    rw [runValidate_validated_data]
    exact validateFieldsLoop_vd_lookup data fields [] [] hnd f hf v r hv hval
  · rintro ⟨f, hf, v, m, hv, hval⟩
    have hne : collectFieldErrors data fields ≠ [] := by
      have hmem : (f.data_source_name, m) ∈ collectFieldErrors data fields := by
        simp only [collectFieldErrors]
        exact List.mem_filterMap.mpr ⟨f, hf, by simp [hv, hval]⟩
      exact List.ne_nil_of_mem hmem
    refine ⟨?_, by rw [hr, if_neg hne], hne⟩
    cases hb : (runValidate (.mk fields nested) data).validated
    · rfl
    · exact absurd (Eq.mp hvd hb).1 hne

/-- C9 (witness): two integer fields over `{"a": "x", "b": "7"}`: the
failing `"a"` raises, yet `"b"`'s coerced value 7 is already stored and
the `validated` flag stays `False`. -/
theorem validate_partial_state_spec_witness :
    dataGet (runValidate
        (.mk [⟨"a", integerFieldValidate⟩, ⟨"b", integerFieldValidate⟩] [])
        [("a", .pystr "x"), ("b", .pystr "7")]).validated_data "b" = some (.pyint 7) ∧
    (runValidate (.mk [⟨"a", integerFieldValidate⟩, ⟨"b", integerFieldValidate⟩] [])
        [("a", .pystr "x"), ("b", .pystr "7")]).validated = false ∧
    (runValidate (.mk [⟨"a", integerFieldValidate⟩, ⟨"b", integerFieldValidate⟩] [])
        [("a", .pystr "x"), ("b", .pystr "7")]).raised =
      some (.filterValidationError [("a", "Expected to be of type int")]) :=
  ⟨(validate_partial_state_spec
      [⟨"a", integerFieldValidate⟩, ⟨"b", integerFieldValidate⟩] []
      [("a", .pystr "x"), ("b", .pystr "7")]).1 (by decide)
      ⟨"b", integerFieldValidate⟩
      (List.mem_cons_of_mem _ (List.mem_cons_self _ _))
      (.pystr "7") (.pyint 7) rfl rfl,
   ((validate_partial_state_spec
      [⟨"a", integerFieldValidate⟩, ⟨"b", integerFieldValidate⟩] []
      [("a", .pystr "x"), ("b", .pystr "7")]).2
      ⟨⟨"a", integerFieldValidate⟩, List.mem_cons_self _ _,
        .pystr "x", "Expected to be of type int", rfl, rfl⟩).1,
   ((validate_partial_state_spec
      [⟨"a", integerFieldValidate⟩, ⟨"b", integerFieldValidate⟩] []
      [("a", .pystr "x"), ("b", .pystr "7")]).2
      ⟨⟨"a", integerFieldValidate⟩, List.mem_cons_self _ _,
        .pystr "x", "Expected to be of type int", rfl, rfl⟩).2.1⟩

/-- C1 (counterexample): a filter with a failing ordinary field `"a"` and
a nested filter whose own field `"b"` would also fail raises an aggregate
error covering only `"a"`: field errors abort `validate()` before
`validate_nested` runs, so the nested failure (second conjunct shows the
inner filter fails on its sub-data) is absent from the raised error. -/
theorem validate_mixed_failure_claim_false :
    (runValidate
        (.mk [⟨"a", integerFieldValidate⟩]
          [.mk "n" false (.mk [⟨"b", integerFieldValidate⟩] [])])
        [("a", .pystr "x"), ("n", .pydict [("b", .pystr "y")])]).raised =
      some (.filterValidationError [("a", "Expected to be of type int")]) ∧
    (runValidate (.mk [⟨"b", integerFieldValidate⟩] [])
        [("b", .pystr "y")]).raised =
      some (.filterValidationError [("b", "Expected to be of type int")]) ∧
    ("b", "Expected to be of type int") ∉
      [("a", "Expected to be of type int")] :=
  ⟨rfl, rfl, by decide⟩

/-- C1 (amended): `validate()` runs `validate_fields` first: if any field
error is collected it raises the aggregate `FilterValidationError` over
exactly those field-scoped errors immediately — nested filters are not
validated — and the `validated` flag stays `False`.  Only when all fields
pass are nested filters validated, and a nested failure propagates as the
raised error (the inner filter's own aggregate error, keyed by the inner
field names).  The flag is set exactly when no error is raised. -/
theorem validate_sequencing_amended (fields : List FieldSpec)
    (nested : List NestedSpec) (data : Data) :
    (collectFieldErrors data fields ≠ [] →
      (runValidate (.mk fields nested) data).raised =
        some (.filterValidationError (collectFieldErrors data fields)) ∧
      (runValidate (.mk fields nested) data).validated = false) ∧
    (collectFieldErrors data fields = [] →
      (runValidate (.mk fields nested) data).raised = runValidateNested nested data ∧
      ((runValidate (.mk fields nested) data).validated = true ↔
        runValidateNested nested data = none)) ∧
    ((runValidate (.mk fields nested) data).validated = true ↔
      (runValidate (.mk fields nested) data).raised = none) := by
  obtain ⟨hr, hvd⟩ := runValidate_raised fields nested data
  refine ⟨?_, ?_, ?_⟩
  · intro hne
    refine ⟨by rw [hr, if_neg hne], ?_⟩
    cases hb : (runValidate (.mk fields nested) data).validated
    · rfl
    · exact absurd (Eq.mp hvd hb).1 hne
  · intro he
    refine ⟨by rw [hr, if_pos he], ?_⟩
    constructor
    · intro hb
      exact (Eq.mp hvd hb).2
    · intro hn
      exact Eq.mpr hvd ⟨he, hn⟩
  · constructor
    · intro hb
      have q := Eq.mp hvd hb
      rw [hr, if_pos q.1]
      exact q.2
    · intro hn
      by_cases he : collectFieldErrors data fields = []
      · rw [hr, if_pos he] at hn
        exact Eq.mpr hvd ⟨he, hn⟩
      · rw [hr, if_neg he] at hn
        exact Option.noConfusion hn

/-- C1 (witness): the amended sequencing evaluated on the counterexample's
filter: the field error on `"a"` is raised alone and the flag stays
`False`. -/
theorem validate_sequencing_amended_witness :
    (runValidate
        (.mk [⟨"a", integerFieldValidate⟩]
          [.mk "n" false (.mk [⟨"b", integerFieldValidate⟩] [])])
        [("a", .pystr "x"), ("n", .pydict [("b", .pystr "y")])]).raised =
      some (.filterValidationError [("a", "Expected to be of type int")]) ∧
    (runValidate
        (.mk [⟨"a", integerFieldValidate⟩]
          [.mk "n" false (.mk [⟨"b", integerFieldValidate⟩] [])])
        [("a", .pystr "x"), ("n", .pydict [("b", .pystr "y")])]).validated = false :=
  (validate_sequencing_amended [⟨"a", integerFieldValidate⟩]
    [.mk "n" false (.mk [⟨"b", integerFieldValidate⟩] [])]
    [("a", .pystr "x"), ("n", .pydict [("b", .pystr "y")])]).1 (by decide)

end SqlalchemyFiltersPlus
